import Mathlib

/-!
Shallow embedding of the `adt-decorators` package (module `adt/__init__.py`,
with `adt/adt.py` an older duplicate of the same code).  The decorator
`adt_with` reads the decorated class annotation dictionary, erases it on the
class, installs a construction guard `Base_init`, and for every annotation
entry normalizes the field schema, synthesizes a dataclass variant subtype,
registers it in `Base.constructors`, and attaches an `is_*` predicate built
from `isinstance`.  The optional `export_cons` operation walks the caller
frames and binds each variant name in every frame global namespace.

Python values relevant to the schema dispatch are modelled by `PyVal` and
`PyRef`; class objects are identified by `ClsId` (a fresh identity per
synthesized class, mirroring Python object identity); instances carry their
concrete class, their method-resolution chain and their field values.
-/

namespace ADTDec

/-- Reference occurring inside a field schema: either an actual class object
(`type(r) == type` holds in Python) or a bare string, used for lazy forward
references that are resolved by name only when a client asks for type hints. -/
inductive PyRef where
  | ty (name : String)
  | fwd (s : String)
deriving DecidableEq, Repr

/-- Python value appearing as the annotation of one variant.  The decorator
dispatches on its runtime type: `dict`, `tuple`/`list`, `type`, and everything
else (including a bare string such as a forward reference, and values like an
`int`) falls into the `else` branch that raises `TypeError`. -/
inductive PyVal where
  | refVal (r : PyRef)
  | intVal (n : Int)
  | listVal (elems : List PyRef)
  | tupleVal (elems : List PyRef)
  | dictVal (entries : List (String × PyRef))
deriving DecidableEq, Repr

/-- Python `str()` of a schema reference; a class object prints as
`<class 'name'>`, a string prints as itself. -/
def pyRefStr : PyRef → String
  | .ty n => "<class \x27" ++ n ++ "\x27>"
  | .fwd s => s

/-- Python `repr()` of a schema reference, used for elements of containers. -/
def pyRefRepr : PyRef → String
  | .ty n => "<class \x27" ++ n ++ "\x27>"
  | .fwd s => "\x27" ++ s ++ "\x27"

/-- Python `str()` of an annotation value, as interpolated by the f-string in
the error message of the decorator. -/
def pyStr : PyVal → String
  | .refVal r => pyRefStr r
  | .intVal n => toString n
  | .listVal ts => "[" ++ String.intercalate ", " (ts.map pyRefRepr) ++ "]"
  | .tupleVal [t] => "(" ++ pyRefRepr t ++ ",)"
  | .tupleVal ts => "(" ++ String.intercalate ", " (ts.map pyRefRepr) ++ ")"
  | .dictVal es =>
      "\x7b" ++
        String.intercalate ", "
          (es.map (fun p => "\x27" ++ p.1 ++ "\x27: " ++ pyRefRepr p.2)) ++
      "\x7d"

/-- Python `c.lower()` restricted to ASCII characters: an ASCII uppercase
letter gains 32, everything else is unchanged.  The source only ever applies
it to identifier characters; behaviour on non-ASCII input is out of scope. -/
def asciiToLower (c : Char) : Char :=
  if c.isUpper then Char.ofNat (c.toNat + 32) else c

/-- Loop body of `upper_camel_to_snake`, indexed by the enumeration counter:
an uppercase character is preceded by an underscore unless it is first, and is
lowercased; any other character is copied unchanged. -/
def ucts_chars : Nat → List Char → List Char
  | _, [] => []
  | i, c :: cs =>
      (if c.isUpper then
        (if i = 0 then [asciiToLower c] else ['_', asciiToLower c])
      else [c]) ++ ucts_chars (i + 1) cs

/-- Embedding of `upper_camel_to_snake` from the source. -/
def upper_camel_to_snake (s : String) : String := ⟨ucts_chars 0 s.data⟩

/-- Field-schema normalization: the `if`/`elif` chain of the decorator loop.
A `dict` is used verbatim; a `tuple` or `list` yields positional fields named
`_1`, `_2`, …; an actual class object yields the single field `_1`; any other
value (a bare string included) has no normal form and makes the decorator
raise. -/
def params? : PyVal → Option (List (String × PyRef))
  | .dictVal entries => some entries
  | .tupleVal ts => some (ts.enum.map (fun p => ("_" ++ toString (p.1 + 1), p.2)))
  | .listVal ts => some (ts.enum.map (fun p => ("_" ++ toString (p.1 + 1), p.2)))
  | .refVal (.ty n) => some [("_1", PyRef.ty n)]
  | .refVal (.fwd _) => none
  | .intVal _ => none

/-- Identity of a class object: the base `object`, a decorated Family class, a
variant class synthesized by `type(con_name, (Base,), ...)`, or a class later
defined by user code.  Distinct constructors model distinct Python class
objects, mirroring identity rather than name equality. -/
inductive ClsId where
  | object
  | family (name : String)
  | variant (famName conName : String)
  | user (name : String)
deriving DecidableEq, Repr

/-- Synthesized variant class: it remembers its Family, its name and its
normalized field list (name and type reference, stored verbatim and hence
resolved lazily). -/
structure VariantType where
  famName : String
  conName : String
  fields : List (String × PyRef)
deriving DecidableEq, Repr

/-- Class object identity of a synthesized variant. -/
def VariantType.clsId (v : VariantType) : ClsId := .variant v.famName v.conName

/-- Decorated class as supplied to `adt_with`: its name and its annotation
dictionary (an ordered, duplicate-free mapping in Python). -/
structure PyClass where
  name : String
  annotations : List (String × PyVal)
deriving DecidableEq, Repr

/-- State of the Family class after a successful pass of the decorator:
`annotations` models the (now erased) `__annotations__` dictionary,
`constructors` the registry `Base.constructors`, `predicates` the attached
`is_*` methods (method name paired with the variant class the closure tests
with `isinstance`), and `initIsGuard` records that `Base.__init__` was
replaced by the raising `Base_init`. -/
structure DecoratedClass where
  name : String
  annotations : List (String × PyVal)
  constructors : List (String × VariantType)
  predicates : List (String × ClsId)
  initIsGuard : Bool
deriving DecidableEq, Repr

/-- Message of the `TypeError` raised on an invalid schema shape, following
the f-string of the source: it interpolates the variant name and the `str()`
of the offending annotation value, and nothing else. -/
def invalid_con_msg (conName : String) (conTy : PyVal) : String :=
  "ADT with invalid constructor definition " ++ conName ++ ": " ++ pyStr conTy

/-- Predicate-method name generated for a variant. -/
def is_con_name (conName : String) : String := "is_" ++ upper_camel_to_snake conName

/-- One iteration of the decorator loop: normalize the schema of one variant
and synthesize its class, or raise the `TypeError` of the `else` branch. -/
def mkCon (famName conName : String) (conTy : PyVal) : Except String VariantType :=
  match params? conTy with
  | some ps => .ok ⟨famName, conName, ps⟩
  | none => .error (invalid_con_msg conName conTy)

/-- Decorator loop over the annotation entries, in declaration order, stopping
at the first invalid schema exactly as the Python `raise` does. -/
def buildCons (famName : String) :
    List (String × PyVal) → Except String (List (String × VariantType))
  | [] => .ok []
  | (n, ty) :: rest =>
      match mkCon famName n ty with
      | .error e => .error e
      | .ok con =>
          match buildCons famName rest with
          | .error e => .error e
          | .ok cons => .ok ((n, con) :: cons)

/-- Embedding of the decorator `adt_with` (keyword configuration forwarded to
`dataclass`, not needed by any claim, is left out).  On success the class
annotation dictionary has been replaced by an empty one, the registry and the
predicate methods are populated in declaration order, and the construction
guard is installed.  On an invalid schema the class statement fails and no
decorated class exists, which the `Except.error` models. -/
def adt_with (cls : PyClass) : Except String DecoratedClass :=
  match buildCons cls.name cls.annotations with
  | .error e => .error e
  | .ok cons =>
      .ok { name := cls.name
          , annotations := []
          , constructors := cons
          , predicates := cons.map (fun p => (is_con_name p.1, VariantType.clsId p.2))
          , initIsGuard := true }

/-- Runtime field values of instances; two representative ground types
suffice for every claim. -/
inductive Value where
  | str (s : String)
  | int (n : Int)
deriving DecidableEq, Repr

/-- Python object: its concrete class, its method-resolution chain (the
concrete class first, `object` last) and its dataclass field values in
declaration order. -/
structure Instance where
  cls : ClsId
  mro : List ClsId
  fields : List (String × Value)
deriving DecidableEq, Repr

/-- Python `isinstance`: membership of the class in the ancestor chain. -/
def isinstance (x : Instance) (c : ClsId) : Bool := x.mro.contains c

/-- Body of the closure returned by `is_con_gen`: `isinstance(self, Con)`. -/
def is_con (conId : ClsId) (self : Instance) : Bool := isinstance self conId

/-- Message of the guard installed as `Base.__init__`, verbatim from the
source. -/
def adt_construct_msg : String :=
  "Tryed to construct an ADT instead of one of it\x27s constructor."

/-- Embedding of `Base_init`: it raises for every argument list. -/
def Base_init (_args : List Value) (_kwargs : List (String × Value)) :
    Except String Instance :=
  .error adt_construct_msg

/-- Calling the Family class itself: after decoration its `__init__` is
`Base_init`; an undecorated class would fall back to the default `object`
construction. -/
def call_family (d : DecoratedClass) (args : List Value)
    (kwargs : List (String × Value)) : Except String Instance :=
  if d.initIsGuard then Base_init args kwargs
  else .ok { cls := .family d.name, mro := [.family d.name, .object], fields := [] }

/-- Calling a variant class: its generated dataclass `__init__` (which
overrides the inherited guard) assigns the positional arguments to the fields
in declaration order, and raises a `TypeError` on an arity mismatch. -/
def mkVariantInstance (v : VariantType) (args : List Value) :
    Except String Instance :=
  if args.length = v.fields.length then
    .ok { cls := v.clsId
        , mro := [v.clsId, .family v.famName, .object]
        , fields := (v.fields.map Prod.fst).zip args }
  else .error "TypeError: wrong number of arguments"

/-- Calling a user-defined subclass of a variant (`class S(Family.V): pass`):
it inherits the dataclass `__init__`, and its method-resolution chain extends
the variant chain by the new class. -/
def mkSubclassInstance (subName : String) (v : VariantType) (args : List Value) :
    Except String Instance :=
  if args.length = v.fields.length then
    .ok { cls := .user subName
        , mro := [.user subName, v.clsId, .family v.famName, .object]
        , fields := (v.fields.map Prod.fst).zip args }
  else .error "TypeError: wrong number of arguments"

/-- Generated dataclass equality: equal concrete class and equal field tuple;
on a class mismatch Python falls back to identity, hence unequal distinct
objects. -/
def dataclassEq (x y : Instance) : Bool := x.cls == y.cls && x.fields == y.fields

/-- Lookup in a Python dictionary modelled as an ordered association list. -/
def dictGet : List (String × α) → String → Option α
  | [], _ => none
  | (k2, v2) :: rest, k => if k2 = k then some v2 else dictGet rest k

/-- Assignment `g[k] = v` on a Python dictionary: an existing entry is
overwritten in place, a fresh key is appended. -/
def dictSet : List (String × α) → String → α → List (String × α)
  | [], k, v => [(k, v)]
  | (k2, v2) :: rest, k, v =>
      if k2 = k then (k, v) :: rest else (k2, v2) :: dictSet rest k v

/-- Stack frame with its global namespace, mapping names to class objects. -/
structure Frame where
  f_globals : List (String × ClsId)
deriving DecidableEq, Repr

/-- Inner loop of `export_cons_fn` on one frame: every variant name is
assigned its variant class in the frame global namespace. -/
def exportFrame (d : DecoratedClass) (fr : Frame) : Frame :=
  ⟨d.constructors.foldl (fun g p => dictSet g p.1 (VariantType.clsId p.2)) fr.f_globals⟩

/-- Embedding of `export_cons_fn`: the frame walk starts at the caller and
follows `f_back` through every enclosing caller, mutating each global
namespace in turn.  The stack lists the caller first. -/
def export_cons_fn (d : DecoratedClass) (stack : List Frame) : List Frame :=
  stack.map (exportFrame d)

/-- Substring test on strings, used to state what an error message does and
does not identify. -/
def strContains (hay needle : String) : Bool := decide (needle.data <:+: hay.data)

/-- Specification-side converter, modelled from the spec words of §4.2: insert
a separator before every uppercase character that is not the first character,
then lowercase the whole string.  Stated for comparison with the source
function `upper_camel_to_snake`. -/
def insertSeps : Nat → List Char → List Char
  | _, [] => []
  | i, c :: cs =>
      (if c.isUpper && decide (i ≠ 0) then ['_', c] else [c]) ++ insertSeps (i + 1) cs

/-- Specification-side converter on strings (see `insertSeps`). -/
def snake_spec (s : String) : String := ⟨(insertSeps 0 s.data).map asciiToLower⟩

/-- ASCII UpperCamelCase strings: ASCII letters only, first letter uppercase
when the string is nonempty. -/
def isUpperCamel (s : String) : Bool :=
  s.data.all (fun c => c.isUpper || c.isLower) &&
    (match s.data with
     | [] => true
     | c :: _ => c.isUpper)

/-- Running example from the package docstring: the lambda-calculus expression
Family with one variant per schema shape. -/
def exprCls : PyClass :=
  ⟨"Expr",
   [("Var", .refVal (.ty "str")),
    ("Abs", .listVal [.ty "str", .fwd "Expr"]),
    ("App", .dictVal [("e1", .fwd "Expr"), ("e2", .fwd "Expr")])]⟩

/-- Variant `Expr.Var` as synthesized by the decorator. -/
def varVar : VariantType := ⟨"Expr", "Var", [("_1", .ty "str")]⟩

/-- Variant `Expr.Abs` as synthesized by the decorator. -/
def varAbs : VariantType := ⟨"Expr", "Abs", [("_1", .ty "str"), ("_2", .fwd "Expr")]⟩

/-- Variant `Expr.App` as synthesized by the decorator. -/
def varApp : VariantType := ⟨"Expr", "App", [("e1", .fwd "Expr"), ("e2", .fwd "Expr")]⟩

/-- Expected state of `Expr` after decoration. -/
def dExpr : DecoratedClass :=
  ⟨"Expr", [],
   [("Var", varVar), ("Abs", varAbs), ("App", varApp)],
   [("is_var", .variant "Expr" "Var"), ("is_abs", .variant "Expr" "Abs"),
    ("is_app", .variant "Expr" "App")],
   true⟩

/-- Instance of a user-defined further subtype `class MyVar(Expr.Var): pass`,
constructed as `MyVar("a")`. -/
def subVarInst : Instance :=
  ⟨.user "MyVar",
   [.user "MyVar", .variant "Expr" "Var", .family "Expr", .object],
   [("_1", .str "a")]⟩

/-- Instance `Expr.Var("x")`. -/
def varInstX : Instance :=
  ⟨.variant "Expr" "Var", [.variant "Expr" "Var", .family "Expr", .object],
   [("_1", .str "x")]⟩

/-- Instance `Expr.Abs("x", "y")`. -/
def absInstXY : Instance :=
  ⟨.variant "Expr" "Abs", [.variant "Expr" "Abs", .family "Expr", .object],
   [("_1", .str "x"), ("_2", .str "y")]⟩

/-- Recursive Family whose single variant is declared with a bare string
forward reference, the single-reference schema shape. -/
def treeCls : PyClass :=
  ⟨"Tree", [("Leaf", .refVal (.ty "int")), ("Node", .refVal (.fwd "Tree"))]⟩

/-- Family with one variant whose schema is an `int`, which is none of the
three accepted shapes. -/
def badCls : PyClass := ⟨"Fam", [("Bad", .intVal 3)]⟩

/-- Family with the three variant shapes of the C7 claim,
`A: T`, `B: [T, T]`, `C: (dict) x: T, y: T`. -/
def tvCls (fam τ : String) : PyClass :=
  ⟨fam,
   [("A", .refVal (.ty τ)),
    ("B", .listVal [.ty τ, .ty τ]),
    ("C", .dictVal [("x", .ty τ), ("y", .ty τ)])]⟩

/-- Variant `A` of `tvCls`. -/
def tvA (fam τ : String) : VariantType := ⟨fam, "A", [("_1", .ty τ)]⟩

/-- Variant `B` of `tvCls`. -/
def tvB (fam τ : String) : VariantType := ⟨fam, "B", [("_1", .ty τ), ("_2", .ty τ)]⟩

/-- Variant `C` of `tvCls`. -/
def tvC (fam τ : String) : VariantType := ⟨fam, "C", [("x", .ty τ), ("y", .ty τ)]⟩

/-- Expected state of `tvCls` after decoration. -/
def tvDecorated (fam τ : String) : DecoratedClass :=
  ⟨fam, [],
   [("A", tvA fam τ), ("B", tvB fam τ), ("C", tvC fam τ)],
   [("is_a", .variant fam "A"), ("is_b", .variant fam "B"),
    ("is_c", .variant fam "C")],
   true⟩

/-- Caller frame with a pre-existing binding for the variant name `Var` and
an unrelated binding `keep`. -/
def frame0 : Frame := ⟨[("Var", .user "OldVar"), ("keep", .object)]⟩

/-- Enclosing caller frame with an empty global namespace. -/
def frame1 : Frame := ⟨[]⟩

/-- Call chain used to exercise the scope exporter. -/
def stack0 : List Frame := [frame0, frame1]

/-! Helper lemmas about the embedded operations. -/

lemma mkCon_ok {fam n : String} {ty : PyVal} {con : VariantType}
    (h : mkCon fam n ty = .ok con) :
    con.famName = fam ∧ con.conName = n ∧ params? ty = some con.fields := by
  unfold mkCon at h
  cases hp : params? ty with
  | none => rw [hp] at h; simp at h
  | some ps => rw [hp] at h; injection h with h; subst h; exact ⟨rfl, rfl, rfl⟩

lemma buildCons_map_fst {fam : String} :
    ∀ {anns : List (String × PyVal)} {cons : List (String × VariantType)},
      buildCons fam anns = .ok cons → cons.map Prod.fst = anns.map Prod.fst := by
  intro anns
  induction anns with
  | nil => intro cons h; simp [buildCons] at h; subst h; rfl
  | cons p rest ih =>
      intro cons h
      obtain ⟨pn, pty⟩ := p
      unfold buildCons at h
      cases hmk : mkCon fam pn pty with
      | error e => rw [hmk] at h; simp at h
      | ok con =>
          rw [hmk] at h
          cases hr : buildCons fam rest with
          | error e => rw [hr] at h; simp at h
          | ok cons2 =>
              rw [hr] at h
              injection h with h
              subst h
              simpa using ih hr

lemma buildCons_mem_eq {fam : String} :
    ∀ {anns : List (String × PyVal)} {cons : List (String × VariantType)},
      buildCons fam anns = .ok cons →
      ∀ {n : String} {v : VariantType}, (n, v) ∈ cons →
        v.famName = fam ∧ v.conName = n := by
  intro anns
  induction anns with
  | nil => intro cons h n v hm; simp [buildCons] at h; subst h; simp at hm
  | cons p rest ih =>
      intro cons h n v hm
      obtain ⟨pn, pty⟩ := p
      unfold buildCons at h
      cases hmk : mkCon fam pn pty with
      | error e => rw [hmk] at h; simp at h
      | ok con =>
          rw [hmk] at h
          cases hr : buildCons fam rest with
          | error e => rw [hr] at h; simp at h
          | ok cons2 =>
              rw [hr] at h
              injection h with h
              subst h
              rcases List.mem_cons.mp hm with hhead | htail
              · obtain ⟨h1, h2⟩ := Prod.mk.injEq .. ▸ hhead
                obtain ⟨hf, hc, _⟩ := mkCon_ok hmk
                subst h1
                exact ⟨h2 ▸ hf, h2 ▸ hc⟩
              · exact ih hr htail

lemma adt_with_ok_parts {cls : PyClass} {d : DecoratedClass}
    (h : adt_with cls = .ok d) :
    buildCons cls.name cls.annotations = .ok d.constructors
    ∧ d.name = cls.name ∧ d.annotations = []
    ∧ d.predicates
        = d.constructors.map (fun p => (is_con_name p.1, VariantType.clsId p.2))
    ∧ d.initIsGuard = true := by
  unfold adt_with at h
  cases hb : buildCons cls.name cls.annotations with
  | error e => rw [hb] at h; simp at h
  | ok cons =>
      rw [hb] at h
      injection h with h
      subst h
      exact ⟨rfl, rfl, rfl, rfl, rfl⟩

lemma buildCons_error_first {fam : String} :
    ∀ (pre : List (String × PyVal)) (n : String) (ty : PyVal)
      (post : List (String × PyVal)),
      (∀ p ∈ pre, (params? p.2).isSome) → params? ty = none →
      buildCons fam (pre ++ (n, ty) :: post) = .error (invalid_con_msg n ty) := by
  intro pre
  induction pre with
  | nil =>
      intro n ty post _ hbad
      simp only [List.nil_append]
      unfold buildCons mkCon
      rw [hbad]
  | cons p rest ih =>
      intro n ty post hpre hbad
      obtain ⟨pn, pty⟩ := p
      have hps : (params? pty).isSome := hpre (pn, pty) (List.mem_cons_self _ _)
      obtain ⟨ps, hps⟩ := Option.isSome_iff_exists.mp hps
      have hrest := ih n ty post (fun q hq => hpre q (List.mem_cons_of_mem _ hq)) hbad
      show buildCons fam ((pn, pty) :: (rest ++ (n, ty) :: post)) = _
      unfold buildCons mkCon
      rw [hps, hrest]

lemma mkVariantInstance_ok {v : VariantType} {args : List Value} {x : Instance}
    (h : mkVariantInstance v args = .ok x) :
    x.cls = v.clsId ∧ x.mro = [v.clsId, .family v.famName, .object]
    ∧ x.fields = (v.fields.map Prod.fst).zip args := by
  unfold mkVariantInstance at h
  split at h
  · injection h with h; subst h; exact ⟨rfl, rfl, rfl⟩
  · simp at h

lemma mkSubclassInstance_ok {s : String} {v : VariantType} {args : List Value}
    {x : Instance} (h : mkSubclassInstance s v args = .ok x) :
    x.cls = .user s
    ∧ x.mro = [.user s, v.clsId, .family v.famName, .object] := by
  unfold mkSubclassInstance at h
  split at h
  · injection h with h; subst h; exact ⟨rfl, rfl⟩
  · simp at h

lemma enum_fields_fst (ts : List PyRef) :
    (ts.enum.map (fun p => ("_" ++ toString (p.1 + 1), p.2))).map Prod.fst
      = (List.range ts.length).map (fun i => "_" ++ toString (i + 1)) := by
  rw [List.map_map, ← List.enum_map_fst ts, List.map_map]
  rfl

lemma enum_fields_snd (ts : List PyRef) :
    (ts.enum.map (fun p => ("_" ++ toString (p.1 + 1), p.2))).map Prod.snd = ts := by
  rw [List.map_map]
  exact List.enum_map_snd ts

lemma asciiToLower_not_upper {c : Char} (h : ¬ c.isUpper = true) :
    asciiToLower c = c := by
  simp [asciiToLower, h]

lemma ucts_eq_spec (cs : List Char) :
    ∀ i, ucts_chars i cs = (insertSeps i cs).map asciiToLower := by
  induction cs with
  | nil => intro i; rfl
  | cons c cs ih =>
      intro i
      by_cases h : c.isUpper = true
      · by_cases hi : i = 0
        · subst hi; simp [ucts_chars, insertSeps, h, ih]
        · simp [ucts_chars, insertSeps, h, hi, ih]
          exact (by decide : asciiToLower '_' = '_')
      · simp [ucts_chars, insertSeps, h, ih, asciiToLower_not_upper h]

lemma strContains_append_mid (a n b : String) :
    strContains (a ++ n ++ b) n = true := by
  unfold strContains
  rw [decide_eq_true_eq, String.data_append, String.data_append]
  exact ⟨a.data, b.data, by simp⟩

lemma strContains_invalid_msg (n : String) (ty : PyVal) :
    strContains (invalid_con_msg n ty) n = true := by
  unfold invalid_con_msg
  rw [String.append_assoc]
  exact strContains_append_mid _ _ _

lemma dictGet_dictSet_self (g : List (String × α)) (k : String) (v : α) :
    dictGet (dictSet g k v) k = some v := by
  induction g with
  | nil => simp [dictSet, dictGet]
  | cons p rest ih =>
      obtain ⟨k2, v2⟩ := p
      by_cases h : k2 = k
      · simp [dictSet, dictGet, h]
      · simp [dictSet, dictGet, h, ih]

lemma dictGet_dictSet_ne (g : List (String × α)) {k k2 : String} (v : α)
    (h : k2 ≠ k) : dictGet (dictSet g k v) k2 = dictGet g k2 := by
  induction g with
  | nil => simp [dictSet, dictGet, Ne.symm h]
  | cons p rest ih =>
      obtain ⟨k3, v3⟩ := p
      by_cases h3 : k3 = k
      · subst h3
        simp [dictSet, dictGet, Ne.symm h]
      · by_cases h2 : k3 = k2 <;> simp [dictSet, dictGet, h3, h2, ih, h]

lemma dictSet_of_dictGet {g : List (String × α)} {k : String} {v : α}
    (h : dictGet g k = some v) : dictSet g k v = g := by
  induction g with
  | nil => simp [dictGet] at h
  | cons p rest ih =>
      obtain ⟨k2, v2⟩ := p
      by_cases h2 : k2 = k
      · subst h2
        simp [dictGet] at h
        simp [dictSet, h]
      · simp [dictGet, h2] at h
        simp [dictSet, h2, ih h]

lemma foldl_dictSet_not_mem
    (cons : List (String × VariantType)) (g : List (String × ClsId))
    {n : String} (h : n ∉ cons.map Prod.fst) :
    dictGet
      (cons.foldl (fun g2 p => dictSet g2 p.1 (VariantType.clsId p.2)) g) n
      = dictGet g n := by
  induction cons generalizing g with
  | nil => rfl
  | cons p rest ih =>
      obtain ⟨m, w⟩ := p
      have hn : n ≠ m := by
        intro hh; exact h (by simp [hh])
      have hrest : n ∉ rest.map Prod.fst := by
        intro hh; exact h (by simp [hh])
      simp only [List.foldl_cons]
      rw [ih _ hrest, dictGet_dictSet_ne _ _ hn]

lemma foldl_dictSet_mem
    {cons : List (String × VariantType)} {n : String} {v : VariantType}
    (hm : (n, v) ∈ cons) (hnd : (cons.map Prod.fst).Nodup)
    (g : List (String × ClsId)) :
    dictGet
      (cons.foldl (fun g2 p => dictSet g2 p.1 (VariantType.clsId p.2)) g) n
      = some (VariantType.clsId v) := by
  induction cons generalizing g with
  | nil => simp at hm
  | cons p rest ih =>
      obtain ⟨m, w⟩ := p
      rcases List.mem_cons.mp hm with hhead | htail
      · obtain ⟨h1, h2⟩ := Prod.mk.injEq .. ▸ hhead
        subst h1; subst h2
        simp only [List.foldl_cons]
        have hrest : n ∉ rest.map Prod.fst := by
          have := hnd
          simp only [List.map_cons, List.nodup_cons] at this
          exact this.1
        rw [foldl_dictSet_not_mem _ _ hrest, dictGet_dictSet_self]
      · have hnd2 : (rest.map Prod.fst).Nodup := by
          simp only [List.map_cons, List.nodup_cons] at hnd
          exact hnd.2
        simp only [List.foldl_cons]
        exact ih htail hnd2 _

lemma foldl_dictSet_fixed
    {cons : List (String × VariantType)} {g : List (String × ClsId)}
    (h : ∀ n v, (n, v) ∈ cons → dictGet g n = some (VariantType.clsId v)) :
    cons.foldl (fun g2 p => dictSet g2 p.1 (VariantType.clsId p.2)) g = g := by
  induction cons with
  | nil => rfl
  | cons p rest ih =>
      obtain ⟨m, w⟩ := p
      simp only [List.foldl_cons]
      rw [dictSet_of_dictGet (h m w (List.mem_cons_self _ _))]
      exact ih (fun n v hm => h n v (List.mem_cons_of_mem _ hm))

lemma exportFrame_idem {d : DecoratedClass}
    (hnd : (d.constructors.map Prod.fst).Nodup) (fr : Frame) :
    exportFrame d (exportFrame d fr) = exportFrame d fr := by
  unfold exportFrame
  congr 1
  exact foldl_dictSet_fixed (fun n v hm => foldl_dictSet_mem hm hnd _)

/-! Claim theorems. -/

/-- Claim C5: schema normalization maps a single type reference to exactly
one positional field with the conventional first-position name `_1`; an
ordered sequence of N type references to N positional fields named `_1`, …,
`_N` in the sequence order (shown for both `list` and `tuple`); and an
explicit name-to-type mapping verbatim.  The normalizer is a pure function,
hence deterministic, and the second-projection equalities show it preserves
the declaration order of the fields. -/
theorem c5_normalizer (τ : String) (ts : List PyRef)
    (m : List (String × PyRef)) :
    params? (.refVal (.ty τ)) = some [("_1", PyRef.ty τ)]
    ∧ (∃ ps, params? (.listVal ts) = some ps
        ∧ ps.map Prod.fst
            = (List.range ts.length).map (fun i => "_" ++ toString (i + 1))
        ∧ ps.map Prod.snd = ts)
    ∧ (∃ ps, params? (.tupleVal ts) = some ps
        ∧ ps.map Prod.fst
            = (List.range ts.length).map (fun i => "_" ++ toString (i + 1))
        ∧ ps.map Prod.snd = ts)
    ∧ params? (.dictVal m) = some m :=
  ⟨rfl,
   ⟨_, rfl, enum_fields_fst ts, enum_fields_snd ts⟩,
   ⟨_, rfl, enum_fields_fst ts, enum_fields_snd ts⟩,
   rfl⟩

/-- Claim C6: the identifier case converter is a pure function that, on every
ASCII UpperCamelCase input, agrees with the rule "insert a separator before
every uppercase character that is not the first character, then lowercase the
whole string" (the function `snake_spec` modelled from the spec words); in
particular it maps "AbsExpr" to "abs_expr", "Var" to "var" and "X" to "x". -/
theorem c6_case_converter :
    (∀ s : String, isUpperCamel s = true → upper_camel_to_snake s = snake_spec s)
    ∧ upper_camel_to_snake "AbsExpr" = "abs_expr"
    ∧ upper_camel_to_snake "Var" = "var"
    ∧ upper_camel_to_snake "X" = "x" := by
  refine ⟨fun s _ => ?_, by decide, by decide, by decide⟩
  unfold upper_camel_to_snake snake_spec
  rw [ucts_eq_spec]

/-- Witness for C6 at the concrete input "AbsExpr". -/
theorem c6_witness :
    isUpperCamel "AbsExpr" = true
    ∧ upper_camel_to_snake "AbsExpr" = snake_spec "AbsExpr" :=
  ⟨by decide, c6_case_converter.1 "AbsExpr" (by decide)⟩

/-- Claim C10: after every successful declaration pass the Family annotation
mapping is empty, while the declared schema has moved into the registry,
whose keys are exactly the declared variant names in order. -/
theorem c10_annotations_erased (cls : PyClass) (d : DecoratedClass)
    (h : adt_with cls = .ok d) :
    d.annotations = [] ∧ d.constructors.map Prod.fst = cls.annotations.map Prod.fst := by
  have hp := adt_with_ok_parts h
  exact ⟨hp.2.2.1, buildCons_map_fst hp.1⟩

/-- Witness for C10 at the docstring Family `Expr`. -/
theorem c10_witness :
    dExpr.annotations = []
    ∧ dExpr.constructors.map Prod.fst = exprCls.annotations.map Prod.fst :=
  c10_annotations_erased exprCls dExpr rfl

/-- Claim C4: for every declared Family, calling the Family class itself
raises the construction `TypeError` for any positional and keyword arguments,
while calling any registered variant with an argument per field is not
prevented by the guard and produces an instance. -/
theorem c4_base_guard (cls : PyClass) (d : DecoratedClass)
    (h : adt_with cls = .ok d) :
    (∀ args kwargs, call_family d args kwargs = .error adt_construct_msg)
    ∧ (∀ n v, (n, v) ∈ d.constructors → ∀ args : List Value,
        args.length = v.fields.length →
        ∃ x, mkVariantInstance v args = .ok x) := by
  have hp := adt_with_ok_parts h
  constructor
  · intro args kwargs
    simp [call_family, hp.2.2.2.2, Base_init]
  · intro n v _ args hlen
    exact ⟨⟨v.clsId, [v.clsId, .family v.famName, .object],
            (v.fields.map Prod.fst).zip args⟩,
           by simp [mkVariantInstance, hlen]⟩

/-- Witness for C4 at the docstring Family `Expr`. -/
theorem c4_witness :
    call_family dExpr [Value.str "x"] [] = .error adt_construct_msg :=
  (c4_base_guard exprCls dExpr rfl).1 [Value.str "x"] []

/-- Claim C3 counterexample: a variant whose schema is the integer 3 is none
of the three accepted shapes; the declaration fails and the raised message
identifies the offending variant name `Bad`, but it does not identify the
Family `Fam` anywhere, refuting the claim that the error identifies both. -/
theorem c3_counterexample :
    adt_with badCls = .error "ADT with invalid constructor definition Bad: 3"
    ∧ strContains "ADT with invalid constructor definition Bad: 3" "Bad" = true
    ∧ strContains "ADT with invalid constructor definition Bad: 3" "Fam" = false :=
  ⟨rfl, by decide, by decide⟩

/-- Claim C3 as amended: whenever some variant schema is none of the three
accepted shapes, the declaration pass fails with a `TypeError` carrying the
invalid-constructor message for the first offending variant, which identifies
the offending variant name (and the offending value) but not the Family; no
decorated Family value is produced (the result is an error, so the Family is
left undeclared). -/
theorem c3_invalid_schema_amended (cls : PyClass)
    (pre post : List (String × PyVal)) (n : String) (ty : PyVal)
    (hsplit : cls.annotations = pre ++ (n, ty) :: post)
    (hpre : ∀ p ∈ pre, (params? p.2).isSome)
    (hbad : params? ty = none) :
    adt_with cls = .error (invalid_con_msg n ty)
    ∧ strContains (invalid_con_msg n ty) n = true := by
  constructor
  · unfold adt_with
    rw [hsplit, buildCons_error_first pre n ty post hpre hbad]
  · exact strContains_invalid_msg n ty

/-- Witness for C3 at the concrete Family `Fam` with schema value 3. -/
theorem c3_witness :
    adt_with badCls = .error (invalid_con_msg "Bad" (.intVal 3))
    ∧ strContains (invalid_con_msg "Bad" (.intVal 3)) "Bad" = true :=
  c3_invalid_schema_amended badCls [] [] "Bad" (.intVal 3) rfl
    (by intro p hp; simp at hp) rfl

/-- Claim C2 counterexample: the single-reference schema shape written as a
bare forward-reference string (`Node: "Tree"` on the Family `Tree`) is not
accepted: a string is not a class object, so the dispatch falls into the
`else` branch and the declaration fails, refuting the claim for the
single-reference shape. -/
theorem c2_counterexample :
    adt_with treeCls = .error "ADT with invalid constructor definition Node: Tree" :=
  rfl

/-- Claim C2 as amended: a forward/self reference to the Family is accepted
at declaration time and kept verbatim (to be resolved lazily by name) when it
occurs as an element of a sequence schema or as a value of a mapping schema;
but a schema consisting of a bare forward-reference string (the
single-reference shape) is rejected with the invalid-constructor-definition
error, because the single shape only accepts actual type objects. -/
theorem c2_forward_refs_amended (fam n : String) (ts : List PyRef)
    (m : List (String × PyRef)) :
    ((adt_with ⟨fam, [(n, .listVal (ts ++ [.fwd fam]))]⟩).map
        (fun d => (dictGet d.constructors n).map
          (fun v => v.fields.map Prod.snd)))
      = .ok (some (ts ++ [.fwd fam]))
    ∧ ((adt_with ⟨fam, [(n, .dictVal (m ++ [("child", .fwd fam)]))]⟩).map
        (fun d => (dictGet d.constructors n).map (fun v => v.fields)))
      = .ok (some (m ++ [("child", .fwd fam)]))
    ∧ adt_with ⟨fam, [(n, .refVal (.fwd fam))]⟩
        = .error (invalid_con_msg n (.refVal (.fwd fam))) := by
  refine ⟨?_, ?_, ?_⟩
  · simp [adt_with, buildCons, mkCon, params?, Except.map, dictGet]
    rw [← List.map_map]
    exact enum_fields_snd _
  · simp [adt_with, buildCons, mkCon, params?, Except.map, dictGet]
  · simp [adt_with, buildCons, mkCon, params?]

/-- Claim C1 counterexample: on the declared Family `Expr`, the generated
predicate for the variant `Var` tests `isinstance`; an instance of a further
user subtype `MyVar` of `Var` therefore satisfies the predicate although its
concrete type is not the synthesized variant type, refuting the exact-type
claim. -/
theorem c1_counterexample :
    adt_with exprCls = .ok dExpr
    ∧ dictGet dExpr.predicates "is_var" = some varVar.clsId
    ∧ mkSubclassInstance "MyVar" varVar [Value.str "a"] = .ok subVarInst
    ∧ is_con varVar.clsId subVarInst = true
    ∧ subVarInst.cls ≠ varVar.clsId :=
  ⟨rfl, rfl, rfl, rfl, by decide⟩

/-- Claim C1 as amended: the generated predicate for a variant returns the
`isinstance` test against that variant class.  On every instance constructed
through a variant of the same Family it returns true exactly when that
variant is the one the predicate was generated for; but on an instance of a
further subtype of the variant it also returns true, even though the
instance's concrete type is not the variant's synthesized type. -/
theorem c1_predicate_amended (cls : PyClass) (d : DecoratedClass)
    (h : adt_with cls = .ok d) (n : String) (v : VariantType)
    (hv : (n, v) ∈ d.constructors) :
    (∀ m w, (m, w) ∈ d.constructors → ∀ args x,
        mkVariantInstance w args = .ok x →
        (is_con v.clsId x = true ↔ v.conName = w.conName))
    ∧ (∀ s args x, mkSubclassInstance s v args = .ok x →
        is_con v.clsId x = true ∧ x.cls ≠ v.clsId) := by
  have hp := adt_with_ok_parts h
  have hvf := buildCons_mem_eq hp.1 hv
  constructor
  · intro m w hw args x hx
    have hwf := buildCons_mem_eq hp.1 hw
    obtain ⟨_, hmro, _⟩ := mkVariantInstance_ok hx
    rw [is_con, isinstance, hmro]
    simp [VariantType.clsId, List.contains, hvf.1, hwf.1]
  · intro s args x hx
    obtain ⟨hcls, hmro⟩ := mkSubclassInstance_ok hx
    constructor
    · rw [is_con, isinstance, hmro]
      simp [List.contains]
    · rw [hcls]
      simp [VariantType.clsId]

/-- Witness for C1 at the Family `Expr`, its variant `Var`, and an instance
of the user subtype `MyVar` of `Var`. -/
theorem c1_witness :
    is_con varVar.clsId subVarInst = true ∧ subVarInst.cls ≠ varVar.clsId :=
  (c1_predicate_amended exprCls dExpr rfl "Var" varVar (by decide)).2
    "MyVar" [Value.str "a"] subVarInst rfl

/-- Claim C8: two instances of the same variant constructed with equal field
values compare equal under the generated dataclass equality; instances of two
distinct variants of the same Family always compare unequal, whatever their
field names and values (in particular even when they coincide). -/
theorem c8_structural_equality (cls : PyClass) (d : DecoratedClass)
    (h : adt_with cls = .ok d) (n m : String) (v w : VariantType)
    (hv : (n, v) ∈ d.constructors) (hw : (m, w) ∈ d.constructors) :
    (∀ args x y, mkVariantInstance v args = .ok x →
        mkVariantInstance v args = .ok y → dataclassEq x y = true)
    ∧ (n ≠ m → ∀ args1 args2 x y, mkVariantInstance v args1 = .ok x →
        mkVariantInstance w args2 = .ok y → dataclassEq x y = false) := by
  have hp := adt_with_ok_parts h
  have hvf := buildCons_mem_eq hp.1 hv
  have hwf := buildCons_mem_eq hp.1 hw
  constructor
  · intro args x y hx hy
    rw [hx] at hy
    injection hy with hy
    subst hy
    simp [dataclassEq]
  · intro hnm args1 args2 x y hx hy
    obtain ⟨hxc, _, _⟩ := mkVariantInstance_ok hx
    obtain ⟨hyc, _, _⟩ := mkVariantInstance_ok hy
    have hne : x.cls ≠ y.cls := by
      rw [hxc, hyc]
      simp [VariantType.clsId, hvf.1, hwf.1, hvf.2, hwf.2]
      exact hnm
    have hb : (x.cls == y.cls) = false := beq_eq_false_iff_ne.mpr hne
    simp [dataclassEq, hb]

/-- Witness for C8 at the Family `Expr`: two equal constructions of
`Var("x")` compare equal, while `Var("x")` and `Abs("x", "y")` compare
unequal. -/
theorem c8_witness :
    dataclassEq varInstX varInstX = true
    ∧ dataclassEq varInstX absInstXY = false :=
  ⟨(c8_structural_equality exprCls dExpr rfl "Var" "Var" varVar varVar
      (by decide) (by decide)).1 [Value.str "x"] varInstX varInstX rfl rfl,
   (c8_structural_equality exprCls dExpr rfl "Var" "Abs" varVar varAbs
      (by decide) (by decide)).2 (by decide) [Value.str "x"]
      [Value.str "x", Value.str "y"] varInstX absInstXY rfl rfl⟩

/-- Claim C9: the scope exporter rebinds, in the global namespace of every
frame of the supplied call chain, each variant name to its synthesized
variant class, silently overwriting any pre-existing binding; bindings under
any other name are left unchanged; and re-invocation rebinds the same names
to the same values (it is idempotent on the chain). -/
theorem c9_scope_export (d : DecoratedClass) (stack : List Frame)
    (hnd : (d.constructors.map Prod.fst).Nodup) :
    (∀ fr : Frame,
        (∀ n v, (n, v) ∈ d.constructors →
            dictGet (exportFrame d fr).f_globals n = some (VariantType.clsId v))
        ∧ (∀ m2, m2 ∉ d.constructors.map Prod.fst →
            dictGet (exportFrame d fr).f_globals m2 = dictGet fr.f_globals m2))
    ∧ export_cons_fn d stack = stack.map (exportFrame d)
    ∧ export_cons_fn d (export_cons_fn d stack) = export_cons_fn d stack := by
  refine ⟨fun fr => ⟨fun n v hm => foldl_dictSet_mem hm hnd _,
                     fun m2 hm => foldl_dictSet_not_mem _ _ hm⟩, rfl, ?_⟩
  unfold export_cons_fn
  rw [List.map_map]
  exact List.map_congr_left (fun fr _ => exportFrame_idem hnd fr)

lemma fld_name_one : ("_" ++ toString (1 : Nat)) = "_1" := rfl

lemma fld_name_two : ("_" ++ toString (2 : Nat)) = "_2" := rfl

lemma icn_A : is_con_name "A" = "is_a" := rfl

lemma icn_B : is_con_name "B" = "is_b" := rfl

lemma icn_C : is_con_name "C" = "is_c" := rfl

/-- Claim C7: for every Family declared with the three variant shapes
`A: T`, `B: [T, T]`, `C: (mapping) x: T, y: T`, the declaration succeeds,
and every value constructed through one of the variants is an instance of
the Family, satisfies the generated predicate of its own variant, and fails
the other two generated predicates — exactly one of the three is true. -/
theorem c7_three_variant_family (fam τ : String) (a b1 b2 vx vy : Value) :
    adt_with (tvCls fam τ) = .ok (tvDecorated fam τ)
    ∧ (∃ xA, mkVariantInstance (tvA fam τ) [a] = .ok xA
        ∧ isinstance xA (.family fam) = true
        ∧ (tvDecorated fam τ).predicates.map (fun p => (p.1, is_con p.2 xA))
            = [("is_a", true), ("is_b", false), ("is_c", false)])
    ∧ (∃ xB, mkVariantInstance (tvB fam τ) [b1, b2] = .ok xB
        ∧ isinstance xB (.family fam) = true
        ∧ (tvDecorated fam τ).predicates.map (fun p => (p.1, is_con p.2 xB))
            = [("is_a", false), ("is_b", true), ("is_c", false)])
    ∧ (∃ xC, mkVariantInstance (tvC fam τ) [vx, vy] = .ok xC
        ∧ isinstance xC (.family fam) = true
        ∧ (tvDecorated fam τ).predicates.map (fun p => (p.1, is_con p.2 xC))
            = [("is_a", false), ("is_b", false), ("is_c", true)]) := by
  refine
    ⟨?_,
     ⟨⟨.variant fam "A", [.variant fam "A", .family fam, .object], [("_1", a)]⟩,
      rfl, ?_, ?_⟩,
     ⟨⟨.variant fam "B", [.variant fam "B", .family fam, .object],
       [("_1", b1), ("_2", b2)]⟩, rfl, ?_, ?_⟩,
     ⟨⟨.variant fam "C", [.variant fam "C", .family fam, .object],
       [("x", vx), ("y", vy)]⟩, rfl, ?_, ?_⟩⟩
  · simp [adt_with, buildCons, mkCon, params?, tvCls, tvDecorated, tvA, tvB, tvC,
          VariantType.clsId, List.enum, List.enumFrom, fld_name_one, fld_name_two,
          icn_A, icn_B, icn_C]
  · simp [isinstance, List.contains]
  · simp [tvDecorated, is_con, isinstance, List.contains]
  · simp [isinstance, List.contains]
  · simp [tvDecorated, is_con, isinstance, List.contains]
  · simp [isinstance, List.contains]
  · simp [tvDecorated, is_con, isinstance, List.contains]

/-- Witness for C9 at the Family `Expr` and a two-frame call chain whose
first frame already binds `Var`. -/
theorem c9_witness :
    dictGet (exportFrame dExpr frame0).f_globals "Var"
        = some (VariantType.clsId varVar)
    ∧ dictGet (exportFrame dExpr frame0).f_globals "keep"
        = dictGet frame0.f_globals "keep"
    ∧ export_cons_fn dExpr (export_cons_fn dExpr stack0)
        = export_cons_fn dExpr stack0 := by
  have h := c9_scope_export dExpr stack0 (by decide)
  exact ⟨(h.1 frame0).1 "Var" varVar (by decide),
         (h.1 frame0).2 "keep" (by decide),
         h.2.2⟩

end ADTDec
